import Mathlib

/-!
Shallow embedding of the price-resolution engine of the Slush-Bot
repository (`src/bot/__init__.py`): cache, token-bucket rate gate,
HTTP retry loop, credential-fallback price resolver, regional-pricing
signal aggregator, batch scanner, and id extraction.

Conventions used throughout:
* wall-clock timestamps and token counts are modelled as rationals;
* Python `Optional[T]` becomes `Option T`;
* Python dictionaries used as key/value stores become function maps
  `String → Option _` (for the response cache) so that key collision and
  substring-eviction behaviour is preserved exactly;
* Python float arithmetic in `robux_received_after_fee` is modelled as
  exact rational arithmetic (`0.30` as `3/10`), which agrees with the
  IEEE-754 evaluation on the integer price range the program handles;
* I/O effects (network, sleeps, logging) are abstracted into explicit
  oracle parameters; the control flow around them is translated verbatim.
-/

namespace SlushBot

/-- Python `str(bool)` rendering used inside f-string cache keys. -/
def pyBool (b : Bool) : String :=
  if b then "True" else "False"

/-- Python `str.lower()` (ASCII-adequate model). -/
def strLower (s : String) : String :=
  String.mk (s.toList.map Char.toLower)

/-- Python `needle in hay` substring test on strings. -/
def strContainsSub (hay needle : String) : Bool :=
  hay.toList.tails.any (fun t => needle.toList.isPrefixOf t)

/-- Python truthiness of an `Optional[str]` (`None` and `""` are falsy). -/
def pyTruthy (o : Option String) : Bool :=
  match o with
  | none => false
  | some s => !s.isEmpty

-- ---------- cache (`_cache`, `_getc`, `_setc`, `_clear_gp_cache`) ----------

/-- The module-level `_cache: Dict[str, Tuple[float, Any]]`, modelled as a
map from keys to `(storedAt, value)`. -/
def CacheMap (α : Type) : Type := String → Option (ℚ × α)

/-- The empty cache. -/
def emptyCache {α : Type} : CacheMap α := fun _ => none

/-- `_getc(key, bypass)`: returns the cached value and the cache after the
call (a stale entry is popped on read).  `ttl` is `CACHE_TTL_SECONDS` and
`now` the value of `time.time()` at the call. -/
def _getc {α : Type} (ttl : ℚ) (c : CacheMap α) (now : ℚ) (key : String)
    (bypass : Bool) : Option α × CacheMap α :=
  if bypass then (none, c)
  else
    match c key with
    | none => (none, c)
    | some (ts, val) =>
      if ttl ≤ 0 ∨ now - ts > ttl then
        (none, fun k => if k = key then none else c k)
      else (some val, c)

/-- `_setc(key, val)`: store `val` under `key` with timestamp `now`. -/
def _setc {α : Type} (c : CacheMap α) (now : ℚ) (key : String) (val : α) :
    CacheMap α :=
  fun k => if k = key then some (now, val) else c k

/-- `_clear_gp_cache(gp_id)`: pop every key that contains `gp_id` as a
substring (Python `if gp_id in k`). -/
def _clear_gp_cache {α : Type} (gp_id : String) (c : CacheMap α) : CacheMap α :=
  fun k => if strContainsSub k gp_id then none else c k

/-- First line of `_scan_data`: `if force: _clear_gp_cache(gp_id)` — the
cache effect of a (possibly forced) scan before resolution starts. -/
def scan_data_cache_clear {α : Type} (force : Bool) (gp_id : String)
    (c : CacheMap α) : CacheMap α :=
  if force then _clear_gp_cache gp_id c else c

-- ---------- fee arithmetic (`round_half_up`, `robux_received_after_fee`) ----------

/-- `round_half_up(n)`: `Decimal(n).quantize(Decimal("1"), ROUND_HALF_UP)`,
i.e. round to the nearest integer with ties going away from zero. -/
def round_half_up (q : ℚ) : ℤ :=
  if 0 ≤ q then ⌊q + 1/2⌋ else -⌊-q + 1/2⌋

/-- `robux_received_after_fee(price)`: `None` propagates; otherwise subtract
the 30% fee (rounded half-up) and clamp at 0. -/
def robux_received_after_fee (price : Option ℤ) : Option ℤ :=
  match price with
  | none => none
  | some p => some (max 0 (p - round_half_up ((3 : ℚ)/10 * p)))

-- ---------- regional-pricing signals (`rp_enabled_from_signals`) ----------

/-- The `priceInformation` sub-object of an upstream details blob, with the
two fields `rp_enabled_from_signals` reads (a missing field defaults the
same way `.get(...) or []` / `bool(.get(...))` does in the source). -/
structure PriceInfo where
  enabledFeatures : List String
  isInActivePriceOptimizationExperiment : Bool
deriving DecidableEq

/-- An upstream details blob as consumed by `rp_enabled_from_signals`
(`priceInformation` may be absent). -/
structure GPDetails where
  priceInformation : Option PriceInfo
deriving DecidableEq

/-- The details branch of `rp_enabled_from_signals` (`if details: ...
return True`): experiment membership or an enabled feature whose lowered
name contains "regional" or "price".  A Python-falsy `details` (None or
empty dict) is modelled as `none`; a `some` with missing
`priceInformation` behaves identically to an empty dict in the branch
body. -/
def rp_details_signal (details : Option GPDetails) : Bool :=
  match details with
  | none => false
  | some d =>
    let enabled :=
      (match d.priceInformation with
       | some pi => pi.enabledFeatures
       | none => []).map strLower
    let in_exp :=
      match d.priceInformation with
      | some pi => pi.isInActivePriceOptimizationExperiment
      | none => false
    in_exp || enabled.any
      (fun x => strContainsSub x "regional" || strContainsSub x "price")

/-- `rp_enabled_from_signals(details, cross_prices, default_price)`: the
pure regional-pricing decision, with its early returns rendered as an
if-chain. -/
def rp_enabled_from_signals (details : Option GPDetails)
    (cross_prices : List ℤ) (default_price : Option ℤ) : Bool :=
  if rp_details_signal details then true
  else if 2 ≤ cross_prices.dedup.length then true
  else if (match default_price with
           | some dp => !cross_prices.isEmpty && cross_prices.any (· < dp)
           | none => false) then true
  else false

-- ---------- API rate gate (`_api_rate_gate`) ----------

/-- The module-level token-bucket state `(_api_tokens, _api_last)`. -/
structure RateBucket where
  tokens : ℚ
  last : ℚ
deriving DecidableEq

/-- One call to `_api_rate_gate()` at monotonic time `now`, with
configuration `API_RPS = rps` and `API_BURST = burst`.  Returns the bucket
state after the critical section and whether the call succeeded without
suspension (`tokens >= 1` after refill; the suspension path sleeps and
returns without debiting). -/
def _api_rate_gate (rps burst : ℚ) (b : RateBucket) (now : ℚ) :
    RateBucket × Bool :=
  let t := min burst (b.tokens + (now - b.last) * rps)
  if 1 ≤ t then (⟨t - 1, now⟩, true) else (⟨t, now⟩, false)

/-- A sequence of `_api_rate_gate()` calls at the given monotonic times;
returns the final bucket and how many calls succeeded without suspension. -/
def runGate (rps burst : ℚ) : RateBucket → List ℚ → RateBucket × ℕ
  | b, [] => (b, 0)
  | b, t :: ts =>
    let s := _api_rate_gate rps burst b t
    let r := runGate rps burst s.1 ts
    (r.1, (if s.2 then 1 else 0) + r.2)

-- ---------- HTTP JSON (`_http_get_json`) ----------

/-- Outcome of one HTTP attempt as observed by `_http_get_json`: a 200 with
a parsed JSON payload (abstracted to a natural tag), a non-200 status code,
or a transport-level exception. -/
inductive HttpResp where
  | ok (v : ℕ)
  | status (code : ℕ)
  | exn
deriving DecidableEq

/-- The retry loop body of `_http_get_json` (`for i in range(attempts)`).
`rr` is `RESPECT_RETRY_AFTER`; `resp i` is the outcome of the attempt with
loop index `i`; `key` is the cache key computed at entry; `cur` is
`cur_cookie`.  Returns the parsed value (if any), the list of cookies the
loop actually attached to requests, one per attempt made, and the cache
after the loop.  Sleep durations (backoff / Retry-After arithmetic) do not
affect the result and are not tracked. -/
def http_attempts (rr : Bool) (resp : ℕ → HttpResp) (key : String) :
    ℕ → ℕ → Option String → CacheMap ℕ → ℚ →
    Option ℕ × List (Option String) × CacheMap ℕ
  | 0, _, _, c, _ => (none, [], c)
  | fuel + 1, i, cur, c, now =>
    match resp i with
    | .ok v => (some v, [cur], _setc c now key v)
    | .exn =>
      let r := http_attempts rr resp key fuel (i + 1) cur c now
      (r.1, cur :: r.2.1, r.2.2)
    | .status s =>
      if s = 401 then (none, [cur], c)
      else if rr && (s = 429 || s = 503) then
        let r := http_attempts rr resp key fuel (i + 1) cur c now
        (r.1, cur :: r.2.1, r.2.2)
      else if s = 403 && cur.isSome then
        let r := http_attempts rr resp key fuel (i + 1) none c now
        (r.1, cur :: r.2.1, r.2.2)
      else if s = 429 || s = 500 || s = 502 || s = 503 || s = 504 then
        let r := http_attempts rr resp key fuel (i + 1) cur c now
        (r.1, cur :: r.2.1, r.2.2)
      else
        let r := http_attempts rr resp key fuel (i + 1) cur c now
        (r.1, cur :: r.2.1, r.2.2)

/-- `_http_get_json(url, cookie, force)`: cache check, then up to three
attempts through `http_attempts`.  Returns (value, cookies used per
attempt, cache after the call). -/
def _http_get_json (rr : Bool) (ttl : ℚ) (resp : ℕ → HttpResp)
    (c : CacheMap ℕ) (now : ℚ) (url : String) (cookie : Option String)
    (force : Bool) : Option ℕ × List (Option String) × CacheMap ℕ :=
  let key := "httpjson::" ++ pyBool (pyTruthy cookie) ++ "::" ++ url
  let g := _getc ttl c now key force
  match g.1 with
  | some v => (some v, [], g.2)
  | none => http_attempts rr resp key 3 0 cookie g.2 now

-- ---------- price resolver (`get_price_any`) ----------

/-- The module-level configuration flags consulted by `get_price_any`
(each read once from the environment at startup).  `cfgA`/`cfgB` are
`ROBLOSECURITY_COOKIES["A"/"B"]` (empty string when unset, as in the
source). -/
structure GPConfig where
  force_scrape : Bool
  fast_mode : Bool
  auto_scrape_on_fail : Bool
  try_playwright : Bool
  cfgA : String
  cfgB : String

/-- The cache key `f"price_any::{cookie is not None}::{gp_id}"`. -/
def price_any_key (cookie : Option String) (gp_id : String) : String :=
  "price_any::" ++ pyBool cookie.isSome ++ "::" ++ gp_id

/-- The `cookie_candidates` list built by `get_price_any`: the explicit
cookie if truthy, then each configured backup cookie if truthy and not
already present, then anonymous. -/
def cookie_candidates (cfgA cfgB : String) (cookie : Option String) :
    List (Option String) :=
  let l0 : List (Option String) :=
    match cookie with
    | some ck => if ck.isEmpty then [] else [some ck]
    | none => []
  let l1 := if !cfgA.isEmpty && !l0.contains (some cfgA) then l0 ++ [some cfgA] else l0
  let l2 := if !cfgB.isEmpty && !l1.contains (some cfgB) then l1 ++ [some cfgB] else l1
  l2 ++ [none]

/-- The credential loop of `get_price_any`: first candidate for which
`get_price_via_api` (the oracle `api`) yields a price. -/
def first_api_price (api : String → Option String → Option ℤ)
    (gp_id : String) : List (Option String) → Option ℤ
  | [] => none
  | ck :: rest =>
    match api gp_id ck with
    | some p => some p
    | none => first_api_price api gp_id rest

/-- Result of a `get_price_any` call: the returned price, whether the
render (Playwright) extraction block was entered, and the cache state
after the call. -/
structure GPResult where
  price : Option ℤ
  scrapeAttempted : Bool
  cache : CacheMap (Option ℤ)

/-- The body of `get_price_any(gp_id, cookie, force)` after the initial
cache check: credential loop, scrape decision, render extraction.  The
lower layer `get_price_via_api` is abstracted as the oracle `api` (per
gp-id and credential; its own details/httpjson caching is internal to the
oracle); the Playwright page extraction is the oracle `scrape` (`none`
models the `except` path where launching the browser raises, `some p` a
completed extraction whose result `p` — possibly `None` — is cached).
The cache under the `price_any::...` key stores `Option ℤ` values because
the scrape path stores `None` prices as well. -/
def gp_scrape_step (cfg : GPConfig) (scrape : String → Option (Option ℤ))
    (c2 : CacheMap (Option ℤ)) (now : ℚ) (gp_id : String) (key : String)
    (should : Bool) : GPResult :=
  if should && cfg.try_playwright then
    match scrape gp_id with
    | some p => ⟨p, true, _setc c2 now key p⟩
    | none => ⟨none, true, c2⟩
  else ⟨none, false, c2⟩

def gp_resolve (cfg : GPConfig)
    (api : String → Option String → Option ℤ)
    (scrape : String → Option (Option ℤ))
    (c2 : CacheMap (Option ℤ)) (now : ℚ) (gp_id : String)
    (cookie : Option String) (key : String) : GPResult :=
  if !cfg.force_scrape then
    let cands := cookie_candidates cfg.cfgA cfg.cfgB cookie
    match first_api_price api gp_id cands with
    | some p => ⟨some p, false, _setc c2 now key (some p)⟩
    | none =>
      let should := (!cfg.fast_mode) || (cfg.auto_scrape_on_fail && cfg.try_playwright)
      gp_scrape_step cfg scrape c2 now gp_id key should
  else gp_scrape_step cfg scrape c2 now gp_id key true

/-- The cache check at the top of `get_price_any`: Python's
`hit = _getc(key, bypass=force); if hit is not None: return hit` takes the
early return only when the stored value is an actual price (a stored
`None` is indistinguishable from a miss at the call site). -/
def get_price_any (cfg : GPConfig) (ttl : ℚ)
    (api : String → Option String → Option ℤ)
    (scrape : String → Option (Option ℤ))
    (c : CacheMap (Option ℤ)) (now : ℚ) (gp_id : String)
    (cookie : Option String) (force : Bool) : GPResult :=
  let key := price_any_key cookie gp_id
  let g := _getc ttl c now key force
  match g.1 with
  | some (some p) => ⟨some p, false, g.2⟩
  | _ => gp_resolve cfg api scrape g.2 now gp_id cookie key

-- ---------- batch scanner (`build_embeds_for_ids`) ----------

/-- A Discord embed produced by the scan flow: either the per-item card
from `build_min_card` (identified by its gamepass id and price) or the
`build_summary_card` with `(total_price, n_scanned, n_with_price)`. -/
inductive BEmbed where
  | card (gp_id : String) (price : Option ℤ)
  | summary (total : ℤ) (scanned : ℕ) (withPrice : ℕ)
deriving DecidableEq

/-- Whether an embed is a per-item card (as opposed to the summary). -/
def BEmbed.isCard : BEmbed → Bool
  | .card _ _ => true
  | .summary _ _ _ => false

/-- Per-item outcomes of the coroutine `one(gp_id)` inside
`build_embeds_for_ids`: `_scan_data` either raises (`.error`, caught and
turned into `None`) or returns an embed and a price.  The oracle `scan`
plays the role of `_scan_data`. -/
def scan_wave_results (scan : String → Except Unit (Option ℤ))
    (gp_ids : List String) : List (Option BEmbed) :=
  gp_ids.map (fun g =>
    match scan g with
    | .ok p => some (.card g p)
    | .error _ => none)

/-- The prices accumulated into `total_price_nonlocal` /
`n_with_price_nonlocal`: non-`None` prices of items whose `one()` call did
not raise. -/
def scan_prices (scan : String → Except Unit (Option ℤ))
    (gp_ids : List String) : List ℤ :=
  gp_ids.filterMap (fun g =>
    match scan g with
    | .ok (some p) => some p
    | _ => none)

/-- `build_embeds_for_ids(gp_ids, force)`.  Concurrency is flattened:
`asyncio.gather` returns wave results in submission order and the waves
are concatenated in order, so the value produced is the in-order map over
`gp_ids`; the nonlocal sum/count fold is order-independent.  The final
list comprehension `[e for e in embeds if e]` drops the `None` slots of
failed items. -/
def build_embeds_for_ids (scan : String → Except Unit (Option ℤ))
    (gp_ids : List String) : List BEmbed :=
  if gp_ids.isEmpty then []
  else
    let total := (scan_prices scan gp_ids).sum
    let nWith := (scan_prices scan gp_ids).length
    let embeds := scan_wave_results scan gp_ids ++
      [some (.summary total gp_ids.length nWith)]
    embeds.filterMap id

-- ---------- id extraction (`extract_gamepass_id`, `extract_many_ids`) ----------

/-- Python word character for `\b` boundaries (`[A-Za-z0-9_]`; the model
is ASCII-adequate for the inputs the bot handles). -/
def isWordCh (c : Char) : Bool := c.isAlphanum || c = '_'

/-- Case-insensitive literal match: consume `pat` (given lowercase) from
`l`, returning the rest on success. -/
def ciMatch : List Char → List Char → Option (List Char)
  | [], l => some l
  | _, [] => none
  | p :: ps, c :: cs => if c.toLower = p then ciMatch ps cs else none

/-- The literal `game` segment of the gamepass-URL regex. -/
def gameSeg : List Char := "game".toList

/-- The literal `pass/` segment of the gamepass-URL regex. -/
def passSeg : List Char := "pass/".toList

/-- Try the regex `game[-_]pass/(\d+)` (IGNORECASE) anchored at the head
of `l`; return the captured digits. -/
def gpPatAt (l : List Char) : Option (List Char) :=
  match ciMatch gameSeg l with
  | none => none
  | some r1 =>
    match r1 with
    | [] => none
    | c :: r2 =>
      if c = '-' || c = '_' then
        match ciMatch passSeg r2 with
        | none => none
        | some r3 =>
          let ds := r3.takeWhile Char.isDigit
          if ds.isEmpty then none else some ds
      else none

/-- `re.search` for `game[-_]pass/(\d+)`: leftmost match. -/
def gpPatSearch : List Char → Option (List Char)
  | [] => none
  | l@(_ :: rest) =>
    match gpPatAt l with
    | some ds => some ds
    | none => gpPatSearch rest

/-- `re.search` for `\b(\d{6,20})\b`, scanning with the previous character
as boundary context.  A match at a position requires a word boundary
before, a maximal digit run of length 6–20 starting there, and a
non-word character (or end) after the run. -/
def numPatSearch (prev : Option Char) : List Char → Option (List Char)
  | [] => none
  | l@(c :: rest) =>
    let boundaryBefore :=
      match prev with
      | none => true
      | some pc => !isWordCh pc
    let run := l.takeWhile Char.isDigit
    let after := l.drop run.length
    let okAfter :=
      match after with
      | [] => true
      | a :: _ => !isWordCh a
    if boundaryBefore && decide (6 ≤ run.length) && decide (run.length ≤ 20)
        && okAfter then
      some run
    else numPatSearch (some c) rest

/-- Python `str.strip()`. -/
def pyStrip (l : List Char) : List Char :=
  ((l.dropWhile Char.isWhitespace).reverse.dropWhile Char.isWhitespace).reverse

/-- The query component of a URL as `urlparse` computes it: cut the
fragment at the first `#`, then take what follows the first `?`. -/
def urlQuery (l : List Char) : List Char :=
  let beforeFrag := l.takeWhile (· ≠ '#')
  match beforeFrag.dropWhile (· ≠ '?') with
  | [] => []
  | _ :: rest => rest

/-- Split a character list on a separator character (every occurrence). -/
def splitOnCh (sep : Char) (l : List Char) : List (List Char) :=
  l.foldr
    (fun c acc =>
      match acc with
      | [] => if c = sep then [[], []] else [[c]]
      | g :: gs => if c = sep then [] :: (g :: gs) else (c :: g) :: gs)
    [[]]

/-- `parse_qs(query).get("id")`'s first entry: the first `k=v` pair with
key `id` and a nonempty value (percent-decoding is not modelled; the ids
the bot receives contain none). -/
def qsFirstId (query : List Char) : Option (List Char) :=
  let pairs := (splitOnCh '&' query).filterMap (fun kv =>
    match splitOnCh '=' kv with
    | k :: v :: _ => if v.isEmpty then none else some (k, v)
    | _ => none)
  match pairs.filter (fun kv => kv.1 = "id".toList) with
  | [] => none
  | kv :: _ => some kv.2

/-- `extract_gamepass_id(text)`: configure-URL query id, else the
`game[-_]pass/(\d+)` capture, else a bare 6–20 digit token. -/
def extract_gamepass_id (text : String) : Option String :=
  if text.isEmpty then none
  else
    let s := pyStrip text.toList
    let viaQuery : Option (List Char) :=
      if strContainsSub (strLower (String.mk s)) "configure?id=" then
        match qsFirstId (urlQuery s) with
        | some gid =>
          if !gid.isEmpty && gid.all Char.isDigit then some gid else none
        | none => none
      else none
    match viaQuery with
    | some gid => some (String.mk gid)
    | none =>
      match gpPatSearch s with
      | some ds => some (String.mk ds)
      | none =>
        match numPatSearch none s with
        | some ds => some (String.mk ds)
        | none => none

/-- One step of `re.split(r"[,\s]+", ...)`: is this a separator char? -/
def isSepCh (c : Char) : Bool := c = ',' || c.isWhitespace

/-- `dropWhile` never lengthens a list (termination measure helper). -/
theorem dropWhile_length_le {α : Type} (p : α → Bool) (l : List α) :
    (l.dropWhile p).length ≤ l.length := by
  induction l with
  | nil => simp [List.dropWhile]
  | cons x xs ih =>
    rw [List.dropWhile_cons]
    split
    · exact Nat.le_succ_of_le ih
    · simp

/-- `re.split(r"[,\s]+", s)`: split on maximal separator runs (a leading
or trailing run contributes an empty token, interior runs collapse). -/
def reSplitRuns : List Char → List Char → List (List Char)
  | [], cur => [cur.reverse]
  | c :: cs, cur =>
    if isSepCh c then
      cur.reverse :: reSplitRuns (cs.dropWhile isSepCh) []
    else reSplitRuns cs (c :: cur)
termination_by l _ => l.length
decreasing_by
  · simp only [List.length_cons]
    have := dropWhile_length_le isSepCh cs
    omega
  · simp only [List.length_cons]; omega

/-- The `ids` list built by `extract_many_ids` before deduplication. -/
def raw_many_ids (text : String) : List String :=
  if text.isEmpty then []
  else
    (reSplitRuns (pyStrip text.toList) []).filterMap
      (fun p => extract_gamepass_id (String.mk p))

/-- The `seen`/`uniq` loop of `extract_many_ids`: keep the first
occurrence of each id. -/
def pyUniq (seen : List String) : List String → List String
  | [] => []
  | x :: xs => if x ∈ seen then pyUniq seen xs else x :: pyUniq (x :: seen) xs

/-- `extract_many_ids(text)`: split, extract per token, deduplicate
keeping first occurrences. -/
def extract_many_ids (text : String) : List String :=
  pyUniq [] (raw_many_ids text)

-- ---------- spec-side reference definitions ----------

/-- Spec rule 1 for the regional-pricing decision, following the spec's
words: the details flag active price-optimization experiment membership,
or list an enabled feature containing "regional" or "price"
(case-insensitive). -/
def rp_rule_details (details : Option GPDetails) : Bool :=
  match details with
  | none => false
  | some d =>
    match d.priceInformation with
    | none => false
    | some pi =>
      pi.isInActivePriceOptimizationExperiment
        || pi.enabledFeatures.any (fun x =>
             strContainsSub (strLower x) "regional"
               || strContainsSub (strLower x) "price")

/-- Spec rule 2: the cross-checked prices contain at least 2 distinct
values. -/
def rp_rule_distinct (cross_prices : List ℤ) : Bool :=
  2 ≤ cross_prices.dedup.length

/-- Spec rule 3: some cross-checked price is strictly below the default
price. -/
def rp_rule_below (cross_prices : List ℤ) (default_price : Option ℤ) : Bool :=
  match default_price with
  | some dp => cross_prices.any (· < dp)
  | none => false

/-! ## Theorems -/

-- ---------- C2: fee arithmetic ----------

/-- The 30% fee rounds half-up to `(3p + 5) / 10` (integer division) for
nonnegative prices. -/
theorem round_half_up_fee (p : ℤ) (hp : 0 ≤ p) :
    round_half_up ((3 : ℚ)/10 * p) = (3 * p + 5) / 10 := by
  have hp' : (0 : ℚ) ≤ (p : ℚ) := by exact_mod_cast hp
  have hq : (0 : ℚ) ≤ (3 : ℚ)/10 * p := by positivity
  unfold round_half_up
  rw [if_pos hq]
  have h : (3 : ℚ)/10 * p + 1/2 = ((3 * p + 5 : ℤ) : ℚ) / ((10 : ℕ) : ℚ) := by
    push_cast; ring
  rw [h, Rat.floor_intCast_div_natCast]
  norm_num

/-- C2: for every non-`None` price `P ≥ 0`, `robux_received_after_fee P`
equals `P − round_half_up(0.30 × P)` (the clamp at 0 never bites for
`P ≥ 0`, so the result is nonnegative), the function is monotonically
non-decreasing in `P`, it returns `None` iff the input is `None`, and
`P = 100` yields 70 while `P = 5` yields 3. -/
theorem robux_received_after_fee_correct :
    (∀ p : ℤ, 0 ≤ p →
        robux_received_after_fee (some p)
          = some (p - round_half_up ((3 : ℚ)/10 * p))
        ∧ ∀ v : ℤ, robux_received_after_fee (some p) = some v → 0 ≤ v)
    ∧ (∀ p q : ℤ, 0 ≤ p → p ≤ q →
        (robux_received_after_fee (some p)).getD 0
          ≤ (robux_received_after_fee (some q)).getD 0)
    ∧ (∀ o : Option ℤ, robux_received_after_fee o = none ↔ o = none)
    ∧ robux_received_after_fee (some 100) = some 70
    ∧ robux_received_after_fee (some 5) = some 3 := by
  have hkey : ∀ p : ℤ, 0 ≤ p →
      robux_received_after_fee (some p) = some (p - (3 * p + 5) / 10) := by
    intro p hp
    have h1 : robux_received_after_fee (some p)
        = some (max 0 (p - round_half_up ((3 : ℚ)/10 * p))) := rfl
    rw [h1, round_half_up_fee p hp]
    have h2 : 0 ≤ p - (3 * p + 5) / 10 := by omega
    rw [max_eq_right h2]
  refine ⟨?_, ?_, ?_, ?_, ?_⟩
  · intro p hp
    refine ⟨?_, ?_⟩
    · rw [hkey p hp, round_half_up_fee p hp]
    · intro v hv
      rw [hkey p hp] at hv
      have : v = p - (3 * p + 5) / 10 := by injection hv; omega
      omega
  · intro p q hp hpq
    rw [hkey p hp, hkey q (le_trans hp hpq)]
    simp only [Option.getD_some]
    omega
  · intro o
    cases o <;> simp [robux_received_after_fee]
  · rw [hkey 100 (by norm_num)]; norm_num
  · rw [hkey 5 (by norm_num)]; norm_num

/-- Witness for C2 at `P = 100`. -/
theorem robux_received_after_fee_correct_witness :
    (0 : ℤ) ≤ 100
    ∧ robux_received_after_fee (some 100)
        = some (100 - round_half_up ((3 : ℚ)/10 * (100 : ℤ))) :=
  ⟨by norm_num, (robux_received_after_fee_correct.1 100 (by norm_num)).1⟩

-- ---------- C3: cache TTL ----------

/-- Reading back the key just stored reduces to the freshness test. -/
theorem getc_set_same (α : Type) (ttl : ℚ) (c : CacheMap α) (t now : ℚ)
    (key : String) (v : α) :
    (_getc ttl (_setc c t key v) now key false).1
      = if ttl ≤ 0 ∨ now - t > ttl then none else some v := by
  have hb : ((false : Bool) = true) = False := by simp
  simp only [_getc, _setc, hb, if_false, eq_self_iff_true, if_true]
  split <;> rfl

/-- C3 counterexample: with `TTL = 300`, a value stored at time 0 is still
returned by a read at time 300 = T + TTL, contradicting "a get at any
time ≥ T+TTL returns absent" (the code expires only strictly after
`T + TTL`, since it tests `now - ts > TTL`). -/
theorem cache_ttl_boundary_cex :
    (_getc (300 : ℚ) (_setc (emptyCache (α := ℤ)) 0 "k" 42) 300 "k" false).1
        = some 42
    ∧ ¬ (_getc (300 : ℚ) (_setc (emptyCache (α := ℤ)) 0 "k" 42) 300 "k"
          false).1 = none := by
  have h : (_getc (300 : ℚ) (_setc (emptyCache (α := ℤ)) 0 "k" 42) 300 "k"
      false).1 = some 42 := by
    rw [getc_set_same, if_neg]
    push_neg
    constructor <;> norm_num
  exact ⟨h, by simp [h]⟩

/-- C3 amended: a value stored at time `T` with TTL > 0 is returned
unchanged by a read at `T + ε` for `0 ≤ ε ≤ TTL` (the boundary instant
included) and is absent for any read strictly after `T + TTL`; a read
with `bypass = true` always misses; and with TTL ≤ 0 every read misses. -/
theorem cache_ttl_behavior (α : Type) (ttl : ℚ) (c : CacheMap α)
    (t ε : ℚ) (key : String) (v : α) :
    (0 < ttl → 0 ≤ ε → ε ≤ ttl →
        (_getc ttl (_setc c t key v) (t + ε) key false).1 = some v)
    ∧ (ttl < ε →
        (_getc ttl (_setc c t key v) (t + ε) key false).1 = none)
    ∧ (∀ (c₀ : CacheMap α) (now : ℚ), (_getc ttl c₀ now key true).1 = none)
    ∧ (ttl ≤ 0 → ∀ (c₀ : CacheMap α) (now : ℚ),
        (_getc ttl c₀ now key false).1 = none) := by
  refine ⟨?_, ?_, ?_, ?_⟩
  · intro h1 h2 h3
    rw [getc_set_same, if_neg]
    push_neg
    constructor <;> linarith
  · intro h
    rw [getc_set_same, if_pos]
    right; linarith
  · intro c₀ now
    simp [_getc]
  · intro h c₀ now
    simp only [_getc]
    split
    · rfl
    · cases c₀ key with
      | none => rfl
      | some tv =>
        obtain ⟨ts, val⟩ := tv
        simp only [eq_true (Or.inl h : ttl ≤ 0 ∨ now - ts > ttl), if_true]

/-- Witness for C3 at TTL = 300, store at 0, read at 0 + 100. -/
theorem cache_ttl_behavior_witness :
    (0 : ℚ) < 300 ∧ (0 : ℚ) ≤ 100 ∧ (100 : ℚ) ≤ 300
    ∧ (_getc (300 : ℚ) (_setc (emptyCache (α := ℤ)) 0 "k" 42) (0 + 100) "k"
          false).1 = some 42 :=
  ⟨by norm_num, by norm_num, by norm_num,
    (cache_ttl_behavior ℤ 300 emptyCache 0 100 "k" 42).1
      (by norm_num) (by norm_num) (by norm_num)⟩

-- ---------- C6: regional-pricing signal purity ----------

/-- C6: `rp_enabled_from_signals` is pure (a Lean function of its three
arguments) and equals the spec's ordered rules — details-based evidence,
else ≥ 2 distinct cross-checked prices, else some cross-checked price
strictly below the default, else false; and the two quoted examples
evaluate as stated. -/
theorem rp_enabled_from_signals_rules :
    (∀ (d : Option GPDetails) (cp : List ℤ) (dp : Option ℤ),
        rp_enabled_from_signals d cp dp
          = (rp_rule_details d || rp_rule_distinct cp || rp_rule_below cp dp))
    ∧ rp_enabled_from_signals none [100, 80] (some 100) = true
    ∧ rp_enabled_from_signals none [100] (some 100) = false := by
  have hdet : ∀ d, rp_details_signal d = rp_rule_details d := by
    intro d
    rcases d with _ | ⟨opi⟩
    · rfl
    · rcases opi with _ | ⟨feats, inexp⟩
      · rfl
      · simp only [rp_details_signal, rp_rule_details, List.any_map]
        rfl
  refine ⟨?_, by decide, by decide⟩
  intro d cp dp
  simp only [rp_enabled_from_signals, hdet]
  cases hd : rp_rule_details d
  · simp only [Bool.false_eq_true, if_false, Bool.false_or]
    by_cases h2 : 2 ≤ cp.dedup.length
    · simp [rp_rule_distinct, h2]
    · rw [if_neg h2]
      have h2' : rp_rule_distinct cp = false := by
        simp [rp_rule_distinct, h2]
      rw [h2', Bool.false_or]
      rcases dp with _ | dpv
      · simp [rp_rule_below]
      · rcases cp with _ | ⟨p0, ps⟩
        · simp [rp_rule_below]
        · simp only [rp_rule_below, List.isEmpty_cons, Bool.not_false,
            Bool.true_and]
          cases h3 : (p0 :: ps).any (· < dpv) <;> simp [h3]
  · simp

-- ---------- C9: force-refresh eviction by substring ----------

/-- C9: a forced scan evicts exactly the cache entries whose key contains
the scanned id as a substring — including entries of *other* items whose
key happens to contain that digit string (forcing id "123" also hits the
`price_any` key of id "91234") — and leaves every other entry unchanged. -/
theorem clear_gp_cache_frame :
    (∀ (α : Type) (c : CacheMap α) (gp : String),
        scan_data_cache_clear true gp c = _clear_gp_cache gp c)
    ∧ (∀ (α : Type) (c : CacheMap α) (gp k : String),
        strContainsSub k gp = true → _clear_gp_cache gp c k = none)
    ∧ (∀ (α : Type) (c : CacheMap α) (gp k : String),
        strContainsSub k gp = false → _clear_gp_cache gp c k = c k)
    ∧ strContainsSub (price_any_key (some "c") "91234") "123" = true
    ∧ strContainsSub (price_any_key (some "c") "567") "123" = false := by
  refine ⟨fun α c gp => rfl, ?_, ?_, by decide, by decide⟩
  · intro α c gp k h
    simp [_clear_gp_cache, h]
  · intro α c gp k h
    simp [_clear_gp_cache, h]

/-- Witness for C9: evicting for id "123" removes the `price_any` entry of
the unrelated id "91234". -/
theorem clear_gp_cache_frame_witness :
    strContainsSub (price_any_key (some "c") "91234") "123" = true
    ∧ _clear_gp_cache "123"
        (_setc (emptyCache (α := ℤ)) 0 (price_any_key (some "c") "91234") 7)
        (price_any_key (some "c") "91234") = none :=
  ⟨by decide,
    clear_gp_cache_frame.2.1 ℤ
      (_setc (emptyCache (α := ℤ)) 0 (price_any_key (some "c") "91234") 7)
      "123" (price_any_key (some "c") "91234") (by decide)⟩

-- ---------- C5: rate-gate conservation ----------

/-- The gate stamps `_api_last = now` in both branches. -/
theorem api_rate_gate_last (rps burst : ℚ) (b : RateBucket) (now : ℚ) :
    (_api_rate_gate rps burst b now).1.last = now := by
  unfold _api_rate_gate
  dsimp only
  split <;> rfl

/-- Single-call token bound: one gate call keeps tokens in `[0, burst]`
(given nonnegative rate, a bucket already in range, and monotone time). -/
theorem api_rate_gate_step (rps burst : ℚ) (hr : 0 ≤ rps)
    (b : RateBucket) (now : ℚ) (h0 : 0 ≤ b.tokens) (hc : b.tokens ≤ burst)
    (hm : b.last ≤ now) :
    0 ≤ (_api_rate_gate rps burst b now).1.tokens
    ∧ (_api_rate_gate rps burst b now).1.tokens ≤ burst := by
  unfold _api_rate_gate
  have hx : 0 ≤ b.tokens + (now - b.last) * rps :=
    add_nonneg h0 (mul_nonneg (by linarith) hr)
  have ht0 : 0 ≤ min burst (b.tokens + (now - b.last) * rps) :=
    le_min (le_trans h0 hc) hx
  have htb : min burst (b.tokens + (now - b.last) * rps) ≤ burst :=
    min_le_left _ _
  dsimp only
  split
  · next h1 =>
    constructor
    · show 0 ≤ min burst (b.tokens + (now - b.last) * rps) - 1
      linarith
    · show min burst (b.tokens + (now - b.last) * rps) - 1 ≤ burst
      linarith
  · exact ⟨ht0, htb⟩

/-- With zero elapsed time the number of non-suspending acquisitions is
bounded by the available tokens and by the number of calls. -/
theorem runGate_same_time (rps burst : ℚ) :
    ∀ (N : ℕ) (x t0 : ℚ), 0 ≤ x → x ≤ burst →
      ((runGate rps burst ⟨x, t0⟩ (List.replicate N t0)).2 : ℚ) ≤ x
      ∧ (runGate rps burst ⟨x, t0⟩ (List.replicate N t0)).2 ≤ N := by
  intro N
  induction N with
  | zero =>
    intro x t0 hx0 _
    refine ⟨?_, by simp [runGate]⟩
    simpa [runGate] using hx0
  | succ n ih =>
    intro x t0 hx0 hxb
    have hmin : min burst (x + (t0 - t0) * rps) = x := by
      rw [show x + (t0 - t0) * rps = x by ring]
      exact min_eq_right hxb
    simp only [List.replicate_succ, runGate, _api_rate_gate, hmin]
    split
    · next h1 =>
      have hih := ih (x - 1) t0 (by linarith) (by linarith)
      simp only [if_pos trivial, if_true]
      constructor
      · have h := hih.1
        push_cast
        push_cast at h
        linarith
      · have h := hih.2
        omega
    · next h1 =>
      have hih := ih x t0 hx0 hxb
      rw [if_neg (by simp)]
      constructor
      · simpa using hih.1
      · simpa using Nat.le_succ_of_le hih.2

/-- C5: the token balance stays in `[0, burst]` after any monotone
sequence of `acquire` calls, and from a full bucket with no elapsed time
at most `min(N, burst)` of `N` consecutive calls succeed without
suspension. -/
theorem rate_gate_conservation (rps burst : ℚ) (hr : 0 ≤ rps)
    (hb : 0 ≤ burst) :
    (∀ (b : RateBucket) (now : ℚ), 0 ≤ b.tokens → b.tokens ≤ burst →
        b.last ≤ now →
        0 ≤ (_api_rate_gate rps burst b now).1.tokens
        ∧ (_api_rate_gate rps burst b now).1.tokens ≤ burst)
    ∧ (∀ (b : RateBucket) (times : List ℚ), 0 ≤ b.tokens →
        b.tokens ≤ burst → List.Chain (· ≤ ·) b.last times →
        0 ≤ (runGate rps burst b times).1.tokens
        ∧ (runGate rps burst b times).1.tokens ≤ burst)
    ∧ (∀ (N : ℕ) (t0 : ℚ),
        ((runGate rps burst ⟨burst, t0⟩ (List.replicate N t0)).2 : ℚ) ≤ burst
        ∧ (runGate rps burst ⟨burst, t0⟩ (List.replicate N t0)).2 ≤ N) := by
  refine ⟨fun b now h0 hc hm => api_rate_gate_step rps burst hr b now h0 hc hm,
    ?_, fun N t0 => runGate_same_time rps burst N burst t0 hb le_rfl⟩
  intro b times
  induction times generalizing b with
  | nil => intro h0 hc _; exact ⟨h0, hc⟩
  | cons t ts ih =>
    intro h0 hc hchain
    rcases hchain with _ | ⟨hle, hchain'⟩
    have hstep := api_rate_gate_step rps burst hr b t h0 hc hle
    have hlast := api_rate_gate_last rps burst b t
    simp only [runGate]
    exact ih (_api_rate_gate rps burst b t).1 hstep.1 hstep.2
      (by rwa [hlast])

/-- Witness for C5: `rps = 5/2`, `burst = 8`, a full bucket at time 0 and
three immediate calls. -/
theorem rate_gate_conservation_witness :
    (0 : ℚ) ≤ 5/2 ∧ (0 : ℚ) ≤ 8
    ∧ ((runGate (5/2) 8 ⟨8, 0⟩ (List.replicate 3 0)).2 : ℚ) ≤ 8
    ∧ (runGate (5/2) 8 ⟨8, 0⟩ (List.replicate 3 0)).2 ≤ 3 :=
  ⟨by norm_num, by norm_num,
    ((rate_gate_conservation (5/2) 8 (by norm_num) (by norm_num)).2.2 3 0).1,
    ((rate_gate_conservation (5/2) 8 (by norm_num) (by norm_num)).2.2 3 0).2⟩

-- ---------- C4: 403 handling in the HTTP retry loop ----------

/-- Once the loop's cookie is dropped it never comes back: every attempt
made with `cur_cookie = None` is anonymous, as is every later one. -/
theorem http_attempts_anon_trace (rr : Bool) (resp : ℕ → HttpResp)
    (key : String) :
    ∀ (fuel i : ℕ) (c : CacheMap ℕ) (now : ℚ),
      ((http_attempts rr resp key fuel i none c now).2.1.all
        (fun x => x.isNone)) = true := by
  intro fuel
  induction fuel with
  | zero => intro i c now; rfl
  | succ n ih =>
    intro i c now
    cases hr : resp i with
    | ok v => simp [http_attempts, hr]
    | exn => simp [http_attempts, hr, ih]
    | status s =>
      simp only [http_attempts, hr]
      split_ifs <;> simp [ih]

/-- A 403 response seen while a credential is attached drops the
credential for the rest of the loop. -/
theorem http_attempts_403_reduction (rr : Bool) (resp : ℕ → HttpResp)
    (key : String) (fuel i : ℕ) (cur : Option String) (c : CacheMap ℕ)
    (now : ℚ) (h403 : resp i = HttpResp.status 403)
    (hsome : cur.isSome = true) :
    http_attempts rr resp key (fuel + 1) i cur c now
      = ((http_attempts rr resp key fuel (i + 1) none c now).1,
         cur :: (http_attempts rr resp key fuel (i + 1) none c now).2.1,
         (http_attempts rr resp key fuel (i + 1) none c now).2.2) := by
  simp only [http_attempts, h403]
  rw [if_neg (by norm_num), if_neg (by simp), if_pos (by simp [hsome])]

/-- C4 amended: when the retry loop of `_http_get_json` receives a 403
while a credential is present, it drops the credential and every
remaining attempt of that call (zero, one, or two of them, depending on
how many of the three attempts are already spent) is made anonymously; a
403 is never retried with the same credential.  The claim's "retries
exactly once as anonymous" does not hold: the anonymous retries continue
for the remaining attempt budget. -/
theorem http_403_drops_credential (rr : Bool) (resp : ℕ → HttpResp)
    (key : String) (fuel i : ℕ) (cur : Option String) (c : CacheMap ℕ)
    (now : ℚ) (h403 : resp i = HttpResp.status 403)
    (hsome : cur.isSome = true) :
    (http_attempts rr resp key (fuel + 1) i cur c now).2.1.head? = some cur
    ∧ ((http_attempts rr resp key (fuel + 1) i cur c now).2.1.tail.all
        (fun x => x.isNone)) = true := by
  rw [http_attempts_403_reduction rr resp key fuel i cur c now h403 hsome]
  exact ⟨rfl, http_attempts_anon_trace rr resp key fuel (i + 1) c now⟩

/-- Witness for C4's amended theorem: three attempts, all answered 403,
starting with a credential. -/
theorem http_403_drops_credential_witness :
    (fun _ => HttpResp.status 403) 0 = HttpResp.status 403
    ∧ (some "c").isSome = true
    ∧ (http_attempts true (fun _ => HttpResp.status 403) "k" 3 0 (some "c")
        emptyCache 0).2.1.head? = some (some "c")
    ∧ ((http_attempts true (fun _ => HttpResp.status 403) "k" 3 0 (some "c")
        emptyCache 0).2.1.tail.all (fun x => x.isNone)) = true :=
  ⟨rfl, rfl,
    (http_403_drops_credential true (fun _ => HttpResp.status 403) "k" 2 0
      (some "c") emptyCache 0 rfl rfl).1,
    (http_403_drops_credential true (fun _ => HttpResp.status 403) "k" 2 0
      (some "c") emptyCache 0 rfl rfl).2⟩

/-- C4 counterexample: with every attempt answered 403 and a credential
present, `_http_get_json` makes its first attempt with the credential and
then *two* anonymous attempts — not "exactly once as anonymous". -/
theorem http_403_retry_count_cex :
    (_http_get_json true 300 (fun _ => HttpResp.status 403) emptyCache 0 "u"
        (some "c") false).2.1 = [some "c", none, none]
    ∧ ((_http_get_json true 300 (fun _ => HttpResp.status 403) emptyCache 0
        "u" (some "c") false).2.1.countP (fun x => x.isNone)) ≠ 1 := by
  constructor
  · rfl
  · decide

-- ---------- C7 / C8: resolver behaviour ----------

/-- A cache miss leaves the cache untouched and yields nothing. -/
theorem getc_miss (α : Type) (ttl : ℚ) (c : CacheMap α) (now : ℚ)
    (key : String) (b : Bool) (h : c key = none) :
    _getc ttl c now key b = (none, c) := by
  unfold _getc
  split
  · rfl
  · rw [h]

/-- A bypassing read always misses and leaves the cache untouched. -/
theorem getc_bypass (α : Type) (ttl : ℚ) (c : CacheMap α) (now : ℚ)
    (key : String) : _getc ttl c now key true = (none, c) := by
  unfold _getc
  rw [if_pos rfl]

/-- The returned price and the scrape decision of the resolution body do
not depend on the incoming cache state (only the outgoing cache does). -/
theorem gp_resolve_cache_irrelevant (cfg : GPConfig)
    (api : String → Option String → Option ℤ)
    (scrape : String → Option (Option ℤ))
    (c2 c2' : CacheMap (Option ℤ)) (now : ℚ) (gp_id : String)
    (cookie : Option String) (key : String) :
    (gp_resolve cfg api scrape c2 now gp_id cookie key).price
      = (gp_resolve cfg api scrape c2' now gp_id cookie key).price
    ∧ (gp_resolve cfg api scrape c2 now gp_id cookie key).scrapeAttempted
      = (gp_resolve cfg api scrape c2' now gp_id cookie key).scrapeAttempted := by
  have hstep : ∀ should,
      (gp_scrape_step cfg scrape c2 now gp_id key should).price
        = (gp_scrape_step cfg scrape c2' now gp_id key should).price
      ∧ (gp_scrape_step cfg scrape c2 now gp_id key should).scrapeAttempted
        = (gp_scrape_step cfg scrape c2' now gp_id key
            should).scrapeAttempted := by
    intro should
    unfold gp_scrape_step
    by_cases hc : (should && cfg.try_playwright) = true
    · rw [if_pos hc, if_pos hc]
      cases scrape gp_id with
      | some p => exact ⟨rfl, rfl⟩
      | none => exact ⟨rfl, rfl⟩
    · rw [if_neg hc, if_neg hc]
      exact ⟨rfl, rfl⟩
  unfold gp_resolve
  by_cases hf : (!cfg.force_scrape) = true
  · rw [if_pos hf, if_pos hf]
    dsimp only
    cases hfp : first_api_price api gp_id
        (cookie_candidates cfg.cfgA cfg.cfgB cookie) with
    | some p => exact ⟨rfl, rfl⟩
    | none => exact hstep _
  · rw [if_neg hf, if_neg hf]
    exact hstep true

/-- C8: a cached `None` price is never served as a hit.  If the
`price_any` key holds a stored `None`, a normal (`force = false`) call
returns the same price and makes the same scrape decision as a
cache-bypassing (`force = true`) call, i.e. it re-resolves. -/
theorem cached_none_not_served (cfg : GPConfig) (ttl : ℚ)
    (api : String → Option String → Option ℤ)
    (scrape : String → Option (Option ℤ))
    (c : CacheMap (Option ℤ)) (now : ℚ) (gp_id : String)
    (cookie : Option String) (ts : ℚ)
    (hstored : c (price_any_key cookie gp_id) = some (ts, none)) :
    (get_price_any cfg ttl api scrape c now gp_id cookie false).price
      = (get_price_any cfg ttl api scrape c now gp_id cookie true).price
    ∧ (get_price_any cfg ttl api scrape c now gp_id cookie
        false).scrapeAttempted
      = (get_price_any cfg ttl api scrape c now gp_id cookie
          true).scrapeAttempted := by
  have hg : _getc ttl c now (price_any_key cookie gp_id) false
      = if ttl ≤ 0 ∨ now - ts > ttl
        then (none, fun k =>
          if k = price_any_key cookie gp_id then none else c k)
        else (some none, c) := by
    unfold _getc
    rw [if_neg (by simp), hstored]
  simp only [get_price_any, getc_bypass, hg]
  by_cases httl : ttl ≤ 0 ∨ now - ts > ttl
  · rw [if_pos httl]
    exact gp_resolve_cache_irrelevant cfg api scrape _ c now gp_id cookie _
  · rw [if_neg httl]
    exact gp_resolve_cache_irrelevant cfg api scrape c c now gp_id cookie _

/-- Witness for C8: a cache holding a stored `None` under the
`price_any` key, a configuration with scraping disabled, and an API that
finds no price: the normal call and the bypass call agree. -/
theorem cached_none_not_served_witness :
    (_setc (emptyCache (α := Option ℤ)) 0 (price_any_key none "1") none)
        (price_any_key none "1") = some (0, none)
    ∧ (get_price_any ⟨false, true, false, false, "", ""⟩ 300
          (fun _ _ => none) (fun _ => none)
          (_setc (emptyCache (α := Option ℤ)) 0 (price_any_key none "1") none)
          10 "1" none false).price
      = (get_price_any ⟨false, true, false, false, "", ""⟩ 300
          (fun _ _ => none) (fun _ => none)
          (_setc (emptyCache (α := Option ℤ)) 0 (price_any_key none "1") none)
          10 "1" none true).price :=
  ⟨by simp [_setc],
    (cached_none_not_served ⟨false, true, false, false, "", ""⟩ 300
      (fun _ _ => none) (fun _ => none)
      (_setc (emptyCache (α := Option ℤ)) 0 (price_any_key none "1") none)
      10 "1" none 0 (by simp [_setc])).1⟩

/-- The candidate chain built for an explicit cookie `A`, one configured
backup `B` (distinct from `A`) and no second backup is `[A, B, anonymous]`. -/
theorem cookie_candidates_A_B (A B : String) (hA : A ≠ "") (hB : B ≠ "")
    (hAB : A ≠ B) :
    cookie_candidates B "" (some A) = [some A, some B, none] := by
  have hAe : A.isEmpty = false := by
    cases h : A.isEmpty
    · rfl
    · exact absurd ((String.isEmpty_iff A).mp h) hA
  have hBe : B.isEmpty = false := by
    cases h : B.isEmpty
    · rfl
    · exact absurd ((String.isEmpty_iff B).mp h) hB
  simp [cookie_candidates, hAe, hBe, List.elem_eq_mem, hAB.symm,
    show ("" : String).isEmpty = true from rfl]

/-- C7: with force-scrape off, an explicit credential `A`, a configured
backup `B`, where `A` yields no price and `B` yields price `pB`, a fresh
`get_price_any` returns `pB` and the render-extraction block is never
entered. -/
theorem fallback_order_uses_B (cfg : GPConfig) (ttl : ℚ)
    (api : String → Option String → Option ℤ)
    (scrape : String → Option (Option ℤ)) (c : CacheMap (Option ℤ))
    (now : ℚ) (gp_id A B : String) (pB : ℤ)
    (hfs : cfg.force_scrape = false)
    (hcfgA : cfg.cfgA = B) (hcfgB : cfg.cfgB = "")
    (hA : A ≠ "") (hB : B ≠ "") (hAB : A ≠ B)
    (hmiss : c (price_any_key (some A) gp_id) = none)
    (hapiA : api gp_id (some A) = none)
    (hapiB : api gp_id (some B) = some pB) :
    (get_price_any cfg ttl api scrape c now gp_id (some A) false).price
        = some pB
    ∧ (get_price_any cfg ttl api scrape c now gp_id (some A)
        false).scrapeAttempted = false := by
  have hcands := cookie_candidates_A_B A B hA hB hAB
  have hfirst : first_api_price api gp_id
      (cookie_candidates cfg.cfgA cfg.cfgB (some A)) = some pB := by
    rw [hcfgA, hcfgB, hcands]
    simp [first_api_price, hapiA, hapiB]
  simp only [get_price_any,
    getc_miss (Option ℤ) ttl c now (price_any_key (some A) gp_id) false hmiss]
  unfold gp_resolve
  rw [if_pos (by simp [hfs])]
  dsimp only
  rw [hfirst]
  exact ⟨rfl, rfl⟩

/-- Witness for C7: concrete configuration, credentials "A"/"B", an API
oracle that only answers for "B". -/
theorem fallback_order_uses_B_witness :
    (get_price_any ⟨false, true, false, true, "B", ""⟩ 300
        (fun _ ck => if ck = some "B" then some 55 else none)
        (fun _ => some (some 99)) emptyCache 0 "777" (some "A") false).price
      = some 55
    ∧ (get_price_any ⟨false, true, false, true, "B", ""⟩ 300
        (fun _ ck => if ck = some "B" then some 55 else none)
        (fun _ => some (some 99)) emptyCache 0 "777" (some "A")
        false).scrapeAttempted = false :=
  fallback_order_uses_B ⟨false, true, false, true, "B", ""⟩ 300
    (fun _ ck => if ck = some "B" then some 55 else none)
    (fun _ => some (some 99)) emptyCache 0 "777" "A" "B" 55
    rfl rfl rfl (by decide) (by decide) (by decide) rfl (by decide) (by decide)

-- ---------- C1: batch isolation ----------

/-- Concrete scan oracle for ids `["1","2","3"]`: resolving "2" raises an
internal fault, "1" and "3" succeed with prices 10 and 30. -/
def scanEx3 : String → Except Unit (Option ℤ) := fun g =>
  if g = "2" then .error () else if g = "1" then .ok (some 10) else .ok (some 30)

/-- C1 counterexample: for ids `[1,2,3]` with `2` raising, the list
returned by `build_embeds_for_ids` carries only *two* per-item entries
(the `None` slot of the failed item is filtered out by
`[e for e in embeds if e]`), not three with an absent slot at index 1; its
element at index 1 is item 3's card, and the whole return value is the two
surviving cards followed by the summary. -/
theorem batch_isolation_cex :
    (build_embeds_for_ids scanEx3 ["1", "2", "3"]).countP
        (fun e => e.isCard) = 2
    ∧ ¬ (build_embeds_for_ids scanEx3 ["1", "2", "3"]).countP
        (fun e => e.isCard) = 3
    ∧ build_embeds_for_ids scanEx3 ["1", "2", "3"]
        = [.card "1" (some 10), .card "3" (some 30), .summary 40 3 2]
    ∧ scanEx3 "2" = .error ()
    ∧ scanEx3 "1" = .ok (some 10)
    ∧ scanEx3 "3" = .ok (some 30) := by
  refine ⟨by decide, by decide, by decide, rfl, rfl, rfl⟩

/-- C1 amended: per-item failure isolation holds internally — the gathered
per-item results have one slot per input id, with `None` exactly at the
failed ids, and the summary's `itemsScanned` is the input count — but the
*returned* list drops the absent slots: it is the surviving cards in input
order followed by the summary. -/
theorem batch_isolation_amended (scan : String → Except Unit (Option ℤ))
    (ids : List String) (h : ids ≠ []) :
    (scan_wave_results scan ids).length = ids.length
    ∧ (∀ (i : ℕ) (g : String), ids.get? i = some g →
        ((scan_wave_results scan ids).get? i = some none
          ↔ ∃ e, scan g = .error e))
    ∧ build_embeds_for_ids scan ids
        = (scan_wave_results scan ids).filterMap id
          ++ [BEmbed.summary (scan_prices scan ids).sum ids.length
                (scan_prices scan ids).length] := by
  refine ⟨by simp [scan_wave_results], ?_, ?_⟩
  · intro i g hg
    have : (scan_wave_results scan ids).get? i
        = some (match scan g with
                | .ok p => some (.card g p)
                | .error _ => none) := by
      simp only [scan_wave_results, List.get?_eq_getElem?, List.getElem?_map,
        List.get?_eq_getElem? ids i ▸ hg]
      rfl
    rw [this]
    cases hs : scan g with
    | ok p => simp
    | error e => simp
  · unfold build_embeds_for_ids
    rw [if_neg (by simpa using h)]
    simp [List.filterMap_append]

/-- Witness for C1's amended theorem at the concrete failing batch. -/
theorem batch_isolation_amended_witness :
    (["1", "2", "3"] : List String) ≠ []
    ∧ (scan_wave_results scanEx3 ["1", "2", "3"]).length = 3
    ∧ build_embeds_for_ids scanEx3 ["1", "2", "3"]
        = (scan_wave_results scanEx3 ["1", "2", "3"]).filterMap id
          ++ [BEmbed.summary (scan_prices scanEx3 ["1", "2", "3"]).sum 3
                (scan_prices scanEx3 ["1", "2", "3"]).length] :=
  ⟨by decide,
    (batch_isolation_amended scanEx3 ["1", "2", "3"] (by decide)).1,
    (batch_isolation_amended scanEx3 ["1", "2", "3"] (by decide)).2.2⟩

-- ---------- C10: id extraction distinctness ----------

/-- Membership in the `seen`/`uniq` loop output: kept iff present in the
input and not already seen. -/
theorem mem_pyUniq (x : String) : ∀ (l seen : List String),
    x ∈ pyUniq seen l ↔ x ∈ l ∧ x ∉ seen := by
  intro l
  induction l with
  | nil => intro seen; simp [pyUniq]
  | cons a as ih =>
    intro seen
    by_cases ha : a ∈ seen
    · simp only [pyUniq, if_pos ha, ih, List.mem_cons]
      constructor
      · rintro ⟨hx, hns⟩; exact ⟨Or.inr hx, hns⟩
      · rintro ⟨hor, hns⟩
        rcases hor with he | hx
        · exact absurd (he ▸ ha) hns
        · exact ⟨hx, hns⟩
    · simp only [pyUniq, if_neg ha, List.mem_cons, ih]
      constructor
      · rintro (he | ⟨hx, hns⟩)
        · subst he; exact ⟨Or.inl rfl, ha⟩
        · exact ⟨Or.inr hx, fun hs => hns (Or.inr hs)⟩
      · rintro ⟨hor, hns⟩
        rcases hor with he | hx
        · exact Or.inl he
        · by_cases hxa : x = a
          · exact Or.inl hxa
          · exact Or.inr ⟨hx, by simp [hxa, hns]⟩

/-- The `seen`/`uniq` loop never emits a duplicate. -/
theorem nodup_pyUniq : ∀ (l seen : List String), (pyUniq seen l).Nodup := by
  intro l
  induction l with
  | nil => intro seen; simp [pyUniq]
  | cons a as ih =>
    intro seen
    by_cases ha : a ∈ seen
    · simpa [pyUniq, if_pos ha] using ih seen
    · simp only [pyUniq, if_neg ha]
      refine List.nodup_cons.mpr ⟨?_, ih (a :: seen)⟩
      intro hmem
      exact ((mem_pyUniq a as (a :: seen)).mp hmem).2 (List.mem_cons_self a seen)

/-- The `seen`/`uniq` loop keeps first occurrences in input order. -/
theorem pairwise_pyUniq : ∀ (l seen : List String),
    (pyUniq seen l).Pairwise
      (fun a b => l.indexOf a < l.indexOf b) := by
  intro l
  induction l with
  | nil => intro seen; simp [pyUniq]
  | cons a as ih =>
    intro seen
    by_cases ha : a ∈ seen
    · simp only [pyUniq, if_pos ha]
      refine List.Pairwise.imp_of_mem ?_ (ih seen)
      intro x y hx hy hlt
      have hx' := (mem_pyUniq x as seen).mp hx
      have hy' := (mem_pyUniq y as seen).mp hy
      have hxa : a ≠ x := fun he => hx'.2 (he ▸ ha)
      have hya : a ≠ y := fun he => hy'.2 (he ▸ ha)
      rw [List.indexOf_cons_ne as hxa, List.indexOf_cons_ne as hya]
      omega
    · simp only [pyUniq, if_neg ha]
      constructor
      · intro y hy
        have hy' := (mem_pyUniq y as (a :: seen)).mp hy
        have hya : a ≠ y := fun he => hy'.2 (by simp [he])
        rw [List.indexOf_cons_self, List.indexOf_cons_ne as hya]
        omega
      · refine List.Pairwise.imp_of_mem ?_ (ih (a :: seen))
        intro x y hx hy hlt
        have hx' := (mem_pyUniq x as (a :: seen)).mp hx
        have hy' := (mem_pyUniq y as (a :: seen)).mp hy
        have hxa : a ≠ x := fun he => hx'.2 (by simp [he])
        have hya : a ≠ y := fun he => hy'.2 (by simp [he])
        rw [List.indexOf_cons_ne as hxa, List.indexOf_cons_ne as hya]
        omega

/-- C10: for every input text, `extract_many_ids` has no duplicates, keeps
exactly the ids extracted from the raw token list, lists them in the order
of their first occurrences, and its length is the number of *distinct*
extracted ids — so a multi-scan resolves no id twice and `itemsScanned`
(= the length of the id list handed to the scanner) counts distinct ids,
not raw tokens. -/
theorem extract_many_ids_distinct :
    (∀ t : String, (extract_many_ids t).Nodup)
    ∧ (∀ (t x : String), x ∈ extract_many_ids t ↔ x ∈ raw_many_ids t)
    ∧ (∀ t : String, (extract_many_ids t).Pairwise
        (fun a b => (raw_many_ids t).indexOf a < (raw_many_ids t).indexOf b))
    ∧ (∀ t : String,
        (extract_many_ids t).length = (raw_many_ids t).dedup.length) := by
  have hmem : ∀ t x : String, x ∈ extract_many_ids t ↔ x ∈ raw_many_ids t := by
    intro t x
    unfold extract_many_ids
    rw [mem_pyUniq]
    simp
  refine ⟨fun t => nodup_pyUniq _ _, hmem, fun t => pairwise_pyUniq _ _, ?_⟩
  intro t
  have h1 : (extract_many_ids t).Nodup := nodup_pyUniq _ _
  have h2 : (raw_many_ids t).dedup.Nodup := List.nodup_dedup _
  calc (extract_many_ids t).length
      = (extract_many_ids t).toFinset.card :=
        (List.toFinset_card_of_nodup h1).symm
    _ = (raw_many_ids t).dedup.toFinset.card := by
        congr 1
        ext x
        simp only [List.mem_toFinset, List.mem_dedup]
        exact hmem t x
    _ = (raw_many_ids t).dedup.length := List.toFinset_card_of_nodup h2

end SlushBot
